import Mathlib

/-!
Verification of the Uber Eats menu scraper (src/app.py, src/scraper.py,
src/config.py) against its natural-language specification.

The Python code is shallowly embedded.  Python strings are modelled as
`List Char` (called `Str` below) so that every operation is a structural
recursion the kernel can evaluate; the Python string methods used by the
code (`split`, `strip`, `startswith`, `in`, `lower`, `replace`, `join`)
are defined over `Str` with the same semantics.  Every interaction with
the browser (Selenium driver calls, page text, element lookups) is an
input to the embedded functions, and exceptions raised by those
interactions are modelled as explicit `Except` / `Option` values threaded
through the same control flow as the Python `try`/`except` blocks.
-/

namespace Scraper

/-- Python strings, modelled as character lists. -/
abbrev Str := List Char

/-- Converts a Lean string literal to the `Str` model. -/
def str (s : String) : Str := s.data

/-- Python default whitespace characters for `str.strip()`. -/
def wsChar (c : Char) : Bool :=
  c == ' ' || c == '\t' || c == '\n' || c == '\r'

/-- Python `s.strip()`: remove leading and trailing whitespace. -/
def trimStr (s : Str) : Str :=
  ((s.dropWhile wsChar).reverse.dropWhile wsChar).reverse

/-- Python `s.split(sep)` for a one-character separator `sep`. -/
def splitOnChar (sep : Char) : Str → List Str
  | [] => [[]]
  | c :: cs =>
    if c == sep then [] :: splitOnChar sep cs
    else
      match splitOnChar sep cs with
      | [] => [[c]]
      | h :: t => (c :: h) :: t

/-- Python `s.startswith(pat)`. -/
def startsW : Str → Str → Bool
  | _, [] => true
  | [], _ :: _ => false
  | c :: cs, p :: ps => c == p && startsW cs ps

/-- Python `pat in s` substring test. -/
def hasSub : Str → Str → Bool
  | [], pat => pat == []
  | c :: cs, pat => startsW (c :: cs) pat || hasSub cs pat

/-- ASCII lowering of one character, for Python `s.lower()`. -/
def lowerChar (c : Char) : Char :=
  if 'A' ≤ c && c ≤ 'Z' then Char.ofNat (c.toNat + 32) else c

/-- Python `s.lower()` (the URLs and patterns compared are ASCII). -/
def lowerStr (s : Str) : Str := s.map lowerChar

/-- Fuel-bounded worker for `replaceStr`; the fuel starts at the length of
the subject string, which suffices because every step consumes at least
one character. -/
def replaceAux : Nat → Str → Str → Str → Str
  | 0, s, _, _ => s
  | _ + 1, [], _, _ => []
  | fuel + 1, c :: cs, pat, repl =>
    if pat != [] && startsW (c :: cs) pat then
      repl ++ replaceAux fuel ((c :: cs).drop pat.length) pat repl
    else c :: replaceAux fuel cs pat repl

/-- Python `s.replace(pat, repl)` for a non-empty pattern: replace all
non-overlapping occurrences, left to right. -/
def replaceStr (s pat repl : Str) : Str := replaceAux s.length s pat repl

/-- One parsed menu item, mirroring the dict literal built by
`UberEatsScraper._extract_item_details` (src/scraper.py lines 371-379). -/
structure MenuItem where
  index : Nat
  name : Str
  description : Str
  price : Str
  image_url : Str
  has_image : Bool
  image_valid : Bool
deriving DecidableEq

/-- `lines = [line.strip() for line in full_text.split('\n') if line.strip()]`
(src/scraper.py line 328). -/
def linesOf (text : Str) : List Str :=
  ((splitOnChar '\n' text).map trimStr).filter (fun l => l != [])

/-- The condition of the second pass of `_extract_item_details`
(src/scraper.py lines 347-352): a line qualifies as name/description
material when it does not start with any boilerplate marker and has
length greater than 1. -/
def qualify (line : Str) : Bool :=
  !startsW line (str "$") && !startsW line (str "#") &&
    !startsW line (str "Popular") && !startsW line (str "most liked") &&
    !startsW line (str "Plus small") && decide (1 < line.length)

/-- `line.split('$')[1].split('•')[0].strip()` re-prefixed with `$`
(src/scraper.py lines 339-340). -/
def price_of_line (line : Str) : Str :=
  '$' :: trimStr ((splitOnChar '•' ((splitOnChar '$' line).getD 1 [])).headD [])

/-- First pass of `_extract_item_details` (src/scraper.py lines 336-343):
take the price from the first line containing `$`, then stop. -/
def find_price : List Str → Str
  | [] => []
  | l :: rest => if l.contains '$' then price_of_line l else find_price rest

/-- Second pass of `_extract_item_details` (src/scraper.py lines 346-356):
the first qualifying line becomes the name, every later qualifying line
different from the name is appended to the description parts. -/
def second_pass : List Str → Str → List Str → Str × List Str
  | [], name, desc => (name, desc)
  | l :: rest, name, desc =>
    if qualify l then
      if name = [] then second_pass rest l desc
      else if l != name then second_pass rest name (desc ++ [l])
      else second_pass rest name desc
    else second_pass rest name desc

/-- `UberEatsScraper._extract_item_details` (src/scraper.py lines 305-382).
The flattened element text and the nested image URL are obtained through
`driver.execute_script` in the source; here they are the inputs `text`
and `image_url`.  Mirrors: the empty-text early return, the two passes
over the trimmed non-empty lines, the `lines[0]` name fallback, the
`' • '.join` of the description parts, and the final dict whose
`has_image` and `image_valid` fields are both `bool(image_url)`. -/
def extract_item_details (text : Str) (index : Nat) (image_url : Str) :
    Option MenuItem :=
  if trimStr text = [] then none
  else
    let lines := linesOf text
    let price := find_price lines
    let nd := second_pass lines [] []
    let name := if nd.1 = [] then lines.headD [] else nd.1
    if name = [] then none
    else some
      { index := index
        name := name
        description := List.intercalate (str " • ") nd.2
        price := price
        image_url := image_url
        has_image := image_url != []
        image_valid := image_url != [] }

/-- `PLACEHOLDER_PATTERNS` from src/config.py lines 76-84. -/
def PLACEHOLDER_PATTERNS : List Str :=
  [str "placeholder", str "no-image", str "default", str "missing",
   str "empty", str "null", str "undefined"]

/-- The local `placeholder_urls` list of `_validate_image_fast`
(src/scraper.py lines 396-403). -/
def placeholder_urls : List Str :=
  [str "data:image", str "placeholder", str "default", str "no-image",
   str "null", str "undefined"]

/-- Common image file extensions checked by `_validate_image_fast`
(src/scraper.py line 415). -/
def image_extensions : List Str :=
  [str ".jpg", str ".jpeg", str ".png", str ".webp", str ".gif"]

/-- `UberEatsScraper._validate_image_fast` (src/scraper.py lines 384-418):
reject empty URLs and URLs containing a placeholder substring, accept the
known CDN host+path pattern, accept common image extensions, otherwise
reject.  Note: this function is defined in the source but is never called
by `_extract_item_details`. -/
def validate_image_fast (image_url : Str) : Bool :=
  if image_url = [] then false
  else
    let url_lower := lowerStr image_url
    if PLACEHOLDER_PATTERNS.any (fun p => hasSub url_lower p) then false
    else if placeholder_urls.any (fun p => hasSub url_lower p) then false
    else if hasSub image_url (str "tb-static.uber.com") &&
        hasSub image_url (str "processed_images") then true
    else if image_extensions.any (fun e => hasSub url_lower e) then true
    else false

/-! Definitions taken from the words of claim C6 (the spec's description of
the item parser), for comparison with `extract_item_details`. -/

/-- From the claim's words: a line qualifies when it does not start with
`$`, `#`, `Popular`, `most liked`, or `Plus small` (no length condition). -/
def claimQualify (line : Str) : Bool :=
  !startsW line (str "$") && !startsW line (str "#") &&
    !startsW line (str "Popular") && !startsW line (str "most liked") &&
    !startsW line (str "Plus small")

/-- From the claim's words: the name is the first line that does not start
with one of the boilerplate markers. -/
def claim_name (lines : List Str) : Option Str :=
  lines.find? claimQualify

/-- From the claim's words: the price comes from the first line containing
`$` by taking the substring after `$` and before a `•` separator (trimmed,
as the spec's own worked example shows), re-prefixed with `$`. -/
def claim_price (lines : List Str) : Str :=
  match lines.find? (fun l => l.contains '$') with
  | some l =>
      '$' :: trimStr ((splitOnChar '•'
        (List.intercalate (str "$") ((splitOnChar '$' l).drop 1))).headD [])
  | none => []

/-- From the claim's words: all other qualifying lines are joined with `•`
as the description. -/
def claim_desc (lines : List Str) : Str :=
  List.intercalate (str "•")
    (lines.filter (fun l => claimQualify l && l != ((claim_name lines).getD [])))

/-! Definitions for the amended form of claim C6, following the code's
actual line filter, price slicing and join separator. -/

/-- Amended name rule: the first line qualifying under `qualify` (which
additionally requires length greater than 1); if no line qualifies, the
first line. -/
def amended_name (lines : List Str) : Str :=
  match lines.find? qualify with
  | some n => n
  | none => lines.headD []

/-- Amended price rule: from the first line containing `$`, the substring
after the first `$` and before the next `$`, cut before the first `•`,
trimmed, re-prefixed with `$`. -/
def amended_price (lines : List Str) : Str :=
  match lines.find? (fun l => l.contains '$') with
  | some l => price_of_line l
  | none => []

/-- Amended description rule: all qualifying lines other than the name,
joined with a spaced bullet separator. -/
def amended_desc (lines : List Str) : Str :=
  List.intercalate (str " • ")
    (lines.filter (fun l => qualify l && l != amended_name lines))

/-- Concrete element text used to separate claim C6 from the code. -/
def t6 : Str := str "x\nBurger\nTasty\nCrispy\n$1 off $5.00 • 89%"

/-- The page state consulted by `_extract_restaurant_name`: the text of the
first element matching a CSS selector (`none` models the
`NoSuchElementException` taken by the `continue` branch), the value of
`driver.title`, and a flag modelling any other driver exception inside the
method's `try` block (caught by its `except Exception`). -/
structure NameEnv where
  findText : Str → Option Str
  title : Str
  fail : Bool

/-- `SELECTORS['restaurant_name'].split(', ')` where the config value is the
string `h1, [data-testid*="store"]` (src/config.py line 66). -/
def restaurant_name_selectors : List Str :=
  [str "h1", str "[data-testid*=\"store\"]"]

/-- `UberEatsScraper._extract_restaurant_name` (src/scraper.py lines 126-150):
try each configured selector in order and return the first stripped
non-empty element text; otherwise, if the title is truthy and contains
`Uber Eats`, return the title with `Uber Eats` removed and stripped;
otherwise the constant `Unknown Restaurant`.  A driver exception anywhere
in the `try` block (modelled by `env.fail`) also falls through to the
constant. -/
def extract_restaurant_name (env : NameEnv) : Str :=
  if env.fail then str "Unknown Restaurant"
  else
    match restaurant_name_selectors.findSome? (fun sel =>
        (env.findText (trimStr sel)).bind (fun t =>
          if trimStr t != [] then some (trimStr t) else none)) with
    | some n => n
    | none =>
      if env.title != [] && hasSub env.title (str "Uber Eats") then
        trimStr (replaceStr env.title (str "Uber Eats") [])
      else str "Unknown Restaurant"

/-- The deduplication step of `_extract_menu_items` (src/scraper.py lines
278-291) applied to a list of already-parsed items: items with a falsy
name are skipped, the stripped name of each kept item is recorded in
`seen`, and an item whose stripped name was already seen is dropped. -/
def dedup_items (seen : List Str) : List MenuItem → List MenuItem
  | [] => []
  | it :: rest =>
    if it.name != [] then
      if seen.contains (trimStr it.name) then dedup_items seen rest
      else it :: dedup_items (trimStr it.name :: seen) rest
    else dedup_items seen rest

/-- The `for i, element in enumerate(item_elements)` loop of
`_extract_menu_items` (src/scraper.py lines 278-298).  Each element is
given as `none` when working on it raised (the per-item `except` clause
then continues with the next element) or as its flattened text and image
URL. -/
def menu_loop (seen : List Str) : List (Nat × Option (Str × Str)) → List MenuItem
  | [] => []
  | (_, none) :: rest => menu_loop seen rest
  | (i, some (txt, img)) :: rest =>
    match extract_item_details txt i img with
    | none => menu_loop seen rest
    | some it =>
      if it.name != [] then
        if seen.contains (trimStr it.name) then menu_loop seen rest
        else it :: menu_loop (trimStr it.name :: seen) rest
      else menu_loop seen rest

/-- `UberEatsScraper._extract_menu_items` (src/scraper.py lines 249-303).
The element list is an `Except` value: `Except.error` models a driver
exception while collecting the elements, which the method's outer
`except Exception` turns into the empty result. -/
def extract_menu_items (elems : Except Str (List (Option (Str × Str)))) :
    List MenuItem :=
  match elems with
  | Except.error _ => []
  | Except.ok l => menu_loop [] l.enum

/-- Observable browser actions of one `scrape_restaurant` run, used to state
the temporal claims about popup handling. -/
inductive Action where
  | navigate
  | findClose (sel : Str)
  | clickClose
  | sendEscape
  | waitItems
  | scroll
  | getName
  | getItems
deriving DecidableEq

/-- Outcome of `self.wait.until(...)` (src/scraper.py lines 97-101): the
items appeared, the wait timed out (`TimeoutException`, caught), or the
driver raised some other exception (not caught there). -/
inductive WaitRes where
  | ok
  | timeout
  | err (msg : Str)
deriving DecidableEq

/-- The environment of one `scrape_restaurant` call: whether `driver.get`
raises, whether the inline popup lookup finds a displayed close button,
the wait outcome, the page state for name extraction, the menu item
elements, and the `time.strftime` result. -/
structure PageEnv where
  nav : Option Str
  popupFound : Bool
  popupDisplayed : Bool
  wait : WaitRes
  nameEnv : NameEnv
  elements : Except Str (List (Option (Str × Str)))
  scrapedAt : Str

/-- The result dict of `scrape_restaurant`.  `scraped_at` is present only
on the success path; `error` is present only on the failure path
(src/scraper.py lines 107-124). -/
structure RestaurantResult where
  url : Str
  restaurant_name : Str
  menu_items : List MenuItem
  scraped_at : Option Str
  error : Option Str
deriving DecidableEq

/-- The dict returned by the `except` clause of `scrape_restaurant`
(src/scraper.py lines 119-124). -/
def errorResult (url e : Str) : RestaurantResult :=
  { url := url
    restaurant_name := str "Unknown"
    menu_items := []
    scraped_at := none
    error := some e }

/-- `UberEatsScraper.scrape_restaurant` (src/scraper.py lines 69-124),
instrumented with the list of browser actions it performs.  Control flow
mirrored from the source: `driver.get` may raise (caught by the outer
`except`); the inline popup block (lines 87-94) looks up the single
selector `button[aria-label="Close"]` and clicks it when displayed, all
its failures being swallowed by its bare `except`; `wait.until` may time
out (caught) or raise (not caught); `_scroll_to_load_all_items` swallows
all its exceptions; then the result dict is assembled from
`_extract_restaurant_name` and `_extract_menu_items`, which swallow their
own exceptions. -/
def scrape_restaurant_trace (url : Str) (env : PageEnv) :
    RestaurantResult × List Action :=
  match env.nav with
  | some e => (errorResult url e, [Action.navigate])
  | none =>
    let popupTrace := Action.findClose (str "button[aria-label=\"Close\"]") ::
      (if env.popupFound && env.popupDisplayed then [Action.clickClose] else [])
    let finish : RestaurantResult × List Action :=
      ({ url := url
         restaurant_name := extract_restaurant_name env.nameEnv
         menu_items := extract_menu_items env.elements
         scraped_at := some env.scrapedAt
         error := none },
       Action.navigate :: popupTrace ++
         [Action.waitItems, Action.scroll, Action.getName, Action.getItems])
    match env.wait with
    | WaitRes.err e =>
        (errorResult url e, Action.navigate :: popupTrace ++ [Action.waitItems])
    | WaitRes.ok => finish
    | WaitRes.timeout => finish

/-- The result dict of one `scrape_restaurant` call. -/
def scrape_restaurant (url : Str) (env : PageEnv) : RestaurantResult :=
  (scrape_restaurant_trace url env).1

/-- A `POST /api/scrape` request body: `none` when `request.get_json()`
yields no JSON object, otherwise the key/value pairs of the JSON object. -/
structure ApiRequest where
  json : Option (List (Str × Str))

/-- `data.get('url', '').strip()` (src/app.py line 70), with the empty
string when the body is missing. -/
def getUrl (req : ApiRequest) : Str :=
  trimStr (((req.json.getD []).lookup (str "url")).getD [])

/-- The environment of one `scrape_menu` request: whether
`UberEatsScraper()` raises during driver setup, the page environment of
the scrape, and whether `jsonify` raises while assembling the response. -/
structure AppEnv where
  initFail : Option Str
  page : PageEnv
  assemble : Option Str

/-- Observable outcome of one `scrape_menu` request: HTTP status, the
`success` flag and `error` field of the JSON envelope, whether the line
`scraper = UberEatsScraper()` was reached (browser work), whether it
completed (a session exists), and how many times `scraper.close()` ran. -/
structure ApiOutcome where
  status : Nat
  success : Bool
  errorMsg : Option Str
  browserWork : Bool
  sessionCreated : Bool
  closeCalls : Nat
deriving DecidableEq

/-- `scrape_menu` (src/app.py lines 38-137), the `POST /api/scrape`
handler.  Control flow mirrored from the source: the three validation
checks return 400 before the scraper is constructed; a constructor
failure propagates to the outer `except`, which finds the module-global
`scraper` still `None` and closes nothing; once the session exists, the
inner `try`/`finally` runs `scraper.close()` exactly once and resets the
global to `None`, so the outer `except` (reached when `jsonify` raises)
does not close again.  `close()` itself (a single `driver.quit()`) is
modelled as non-raising. -/
def scrape_menu (req : ApiRequest) (env : AppEnv) : ApiOutcome :=
  match req.json with
  | none =>
    { status := 400, success := false, errorMsg := some (str "No JSON data provided")
      browserWork := false, sessionCreated := false, closeCalls := 0 }
  | some data =>
    if data.isEmpty then
      { status := 400, success := false, errorMsg := some (str "No JSON data provided")
        browserWork := false, sessionCreated := false, closeCalls := 0 }
    else
      -- `url = data.get('url', '').strip()`, inlined at each use below
      if trimStr ((data.lookup (str "url")).getD []) = [] then
        { status := 400, success := false, errorMsg := some (str "URL is required")
          browserWork := false, sessionCreated := false, closeCalls := 0 }
      else if !hasSub (trimStr ((data.lookup (str "url")).getD [])) (str "ubereats.com") then
        { status := 400, success := false
          errorMsg := some (str "Please provide a valid Uber Eats URL")
          browserWork := false, sessionCreated := false, closeCalls := 0 }
      else
        match env.initFail with
        | some e =>
          { status := 500, success := false
            errorMsg := some (str "Internal server error: " ++ e)
            browserWork := true, sessionCreated := false, closeCalls := 0 }
        | none =>
          match (scrape_restaurant (trimStr ((data.lookup (str "url")).getD [])) env.page).error with
          | some e =>
            match env.assemble with
            | none =>
              { status := 500, success := false, errorMsg := some e
                browserWork := true, sessionCreated := true, closeCalls := 1 }
            | some a =>
              { status := 500, success := false
                errorMsg := some (str "Internal server error: " ++ a)
                browserWork := true, sessionCreated := true, closeCalls := 1 }
          | none =>
            match env.assemble with
            | none =>
              { status := 200, success := true, errorMsg := none
                browserWork := true, sessionCreated := true, closeCalls := 1 }
            | some a =>
              { status := 500, success := false
                errorMsg := some (str "Internal server error: " ++ a)
                browserWork := true, sessionCreated := true, closeCalls := 1 }

/-- Recognizer for popup-close lookups in an action trace. -/
def isFindClose : Action → Bool
  | Action.findClose _ => true
  | _ => false

/-! Concrete inputs used by witnesses and counterexamples. -/

/-- A non-empty image URL containing the substring `placeholder`. -/
def placeholder_url : Str := str "https://img.example.com/placeholder.png"

/-- A page state in which no selector matches and the title is empty. -/
def nameEnvNone : NameEnv :=
  { findText := fun _ => none, title := [], fail := false }

/-- A page state in which every selector lookup returns `Bao House`. -/
def nameEnvSel : NameEnv :=
  { findText := fun _ => some (str "Bao House"), title := [], fail := false }

/-- A scrape environment in which every browser step succeeds and the page
has no popup and no menu items. -/
def pageEnvOk : PageEnv :=
  { nav := none, popupFound := false, popupDisplayed := false
    wait := WaitRes.ok, nameEnv := nameEnvNone, elements := Except.ok []
    scrapedAt := str "2025-09-05 12:00:00" }

/-- A scrape environment in which navigation succeeds, the restaurant name
extracts to `Sushi Place`, but collecting the menu item elements raises. -/
def pageEnvExtractFail : PageEnv :=
  { nav := none, popupFound := false, popupDisplayed := false
    wait := WaitRes.ok
    nameEnv := { findText := fun _ => some (str "Sushi Place"), title := [], fail := false }
    elements := Except.error (str "boom")
    scrapedAt := str "2025-09-05 12:00:00" }

/-- A scrape environment in which `driver.get` raises. -/
def pageEnvNavFail : PageEnv :=
  { nav := some (str "net::ERR_NAME_NOT_RESOLVED")
    popupFound := false, popupDisplayed := false, wait := WaitRes.ok
    nameEnv := nameEnvNone, elements := Except.ok []
    scrapedAt := str "2025-09-05 12:00:00" }

/-- A request environment in which driver setup and response assembly
succeed. -/
def appEnvOk : AppEnv :=
  { initFail := none, page := pageEnvOk, assemble := none }

/-- A valid request body. -/
def goodReq : ApiRequest :=
  { json := some [(str "url", str "https://www.ubereats.com/ca/store/x")] }

/-- Parsed items with one duplicated trimmed name, for the deduplication
witness. -/
def itemsDup : List MenuItem :=
  [{ index := 0, name := str "Dumplings", description := [], price := str "$7.49"
     image_url := [], has_image := false, image_valid := false },
   { index := 1, name := str " Dumplings ", description := str "steamed", price := str "$7.99"
     image_url := [], has_image := false, image_valid := false },
   { index := 2, name := str "Bao", description := [], price := str "$5.00"
     image_url := [], has_image := false, image_valid := false }]

/-- The item produced by parsing `Dumplings\n$7.49` with a placeholder
image URL, for the C10 witness. -/
def itemPlaceholder : MenuItem :=
  { index := 0, name := str "Dumplings", description := [], price := str "$7.49"
    image_url := placeholder_url, has_image := true, image_valid := true }

/-! ## Shared helper lemmas -/

/-- Every line produced by `linesOf` is non-empty. -/
theorem linesOf_mem_ne_nil {text : Str} {l : Str} (h : l ∈ linesOf text) :
    l ≠ [] := by
  have hb : (l != []) = true := (List.mem_filter.mp h).2
  simpa using hb

/-- The item-parsing loop of `_extract_menu_items` is the per-element
parse followed by the name-based deduplication `dedup_items`. -/
theorem menu_loop_eq_dedup (seen : List Str) (l : List (Nat × Option (Str × Str))) :
    menu_loop seen l =
      dedup_items seen
        (l.filterMap (fun p => p.2.bind (fun e => extract_item_details e.1 p.1 e.2))) := by
  induction l generalizing seen with
  | nil => rfl
  | cons p rest ih =>
    obtain ⟨i, o⟩ := p
    cases o with
    | none => simpa [menu_loop] using ih seen
    | some e =>
      obtain ⟨txt, img⟩ := e
      cases hp : extract_item_details txt i img with
      | none => simp [menu_loop, hp, dedup_items, ih]
      | some it =>
        by_cases hn : (it.name != []) = true
        · by_cases hs : seen.contains (trimStr it.name) = true
          · simp [menu_loop, hp, dedup_items, hn, hs, ih]
          · simp [menu_loop, hp, dedup_items, hn, hs, ih]
        · simp [menu_loop, hp, dedup_items, hn, ih]

/-- The deduplicated list is a sublist of the input: kept items appear in
their original order. -/
theorem dedup_items_sublist (seen : List Str) (l : List MenuItem) :
    List.Sublist (dedup_items seen l) l := by
  induction l generalizing seen with
  | nil => simp [dedup_items]
  | cons it rest ih =>
    unfold dedup_items
    by_cases hn : (it.name != []) = true
    · by_cases hs : seen.contains (trimStr it.name) = true
      · simp only [hn, hs, if_true]
        exact (ih seen).cons it
      · simp only [hn, hs, if_true, if_false]
        exact (ih (trimStr it.name :: seen)).cons₂ it
    · simp only [hn, if_false]
      exact (ih seen).cons it

/-- No surviving item has a trimmed name that was already in `seen`. -/
theorem dedup_items_not_seen (seen : List Str) (l : List MenuItem) :
    ∀ u ∈ dedup_items seen l, seen.contains (trimStr u.name) = false := by
  induction l generalizing seen with
  | nil => intro u hu; simp [dedup_items] at hu
  | cons it rest ih =>
    intro u hu
    unfold dedup_items at hu
    by_cases hn : (it.name != []) = true
    · by_cases hs : seen.contains (trimStr it.name) = true
      · simp only [hn, hs, if_true] at hu
        exact ih seen u hu
      · simp only [hn, hs, if_true, if_false] at hu
        rcases List.mem_cons.mp hu with rfl | hu
        · exact Bool.not_eq_true _ |>.mp hs
        · have := ih (trimStr it.name :: seen) u hu
          simp only [List.contains_cons, Bool.or_eq_false_iff] at this
          exact this.2
    · simp only [hn, if_false] at hu
      exact ih seen u hu

/-- Surviving items have pairwise distinct trimmed names. -/
theorem dedup_items_pairwise (seen : List Str) (l : List MenuItem) :
    (dedup_items seen l).Pairwise
      (fun a b => trimStr a.name ≠ trimStr b.name) := by
  induction l generalizing seen with
  | nil => simp [dedup_items]
  | cons it rest ih =>
    unfold dedup_items
    by_cases hn : (it.name != []) = true
    · by_cases hs : seen.contains (trimStr it.name) = true
      · simp only [hn, hs, if_true]
        exact ih seen
      · simp only [hn, hs, if_true, if_false]
        refine List.Pairwise.cons ?_ (ih (trimStr it.name :: seen))
        intro b hb
        have := dedup_items_not_seen (trimStr it.name :: seen) rest b hb
        simp only [List.contains_cons, Bool.or_eq_false_iff, beq_eq_false_iff_ne] at this
        exact fun hcontra => this.1 hcontra.symm
    · simp only [hn, if_false]
      exact ih seen

/-- Every input item whose trimmed name is not yet in `seen` (and whose
name is truthy) is represented in the output by some surviving item with
the same trimmed name: each duplicate group contributes an entry. -/
theorem dedup_items_covers (seen : List Str) (l : List MenuItem) :
    ∀ it ∈ l, it.name ≠ [] → seen.contains (trimStr it.name) = false →
      ∃ u ∈ dedup_items seen l, trimStr u.name = trimStr it.name := by
  induction l generalizing seen with
  | nil => intro it hit; simp at hit
  | cons a rest ih =>
    intro it hit hname hseen
    have ha : (a.name != []) = true ∨ (a.name != []) = false := by
      cases a.name != [] <;> simp
    rcases List.mem_cons.mp hit with rfl | hit
    · have hn : (it.name != []) = true := by simpa using hname
      refine ⟨it, ?_, rfl⟩
      unfold dedup_items
      simp only [hn, hseen, if_true, if_false]
      exact List.mem_cons_self it _
    · rcases ha with hn | hn
      · by_cases hs : seen.contains (trimStr a.name) = true
        · obtain ⟨u, hu, he⟩ := ih seen it hit hname hseen
          refine ⟨u, ?_, he⟩
          unfold dedup_items
          simp only [hn, hs, if_true]
          exact hu
        · by_cases heq : trimStr it.name = trimStr a.name
          · refine ⟨a, ?_, heq.symm⟩
            unfold dedup_items
            simp only [hn, hs, if_true, if_false]
            exact List.mem_cons_self a _
          · have hseen2 : (trimStr a.name :: seen).contains (trimStr it.name) = false := by
              simp only [List.contains_cons, Bool.or_eq_false_iff, beq_eq_false_iff_ne]
              exact ⟨heq, hseen⟩
            obtain ⟨u, hu, he⟩ := ih (trimStr a.name :: seen) it hit hname hseen2
            refine ⟨u, ?_, he⟩
            unfold dedup_items
            simp only [hn, hs, if_true, if_false]
            exact List.mem_cons_of_mem a hu
      · obtain ⟨u, hu, he⟩ := ih seen it hit hname hseen
        refine ⟨u, ?_, he⟩
        unfold dedup_items
        simp only [hn, if_false]
        exact hu

/-- Every surviving item is the first input item bearing its trimmed name:
first-seen wins. -/
theorem dedup_items_first (seen : List Str) (l : List MenuItem)
    (hne : ∀ v ∈ l, v.name ≠ []) :
    ∀ u ∈ dedup_items seen l,
      l.find? (fun v => trimStr v.name == trimStr u.name) = some u := by
  induction l generalizing seen with
  | nil => intro u hu; simp [dedup_items] at hu
  | cons a rest ih =>
    intro u hu
    have hrest : ∀ v ∈ rest, v.name ≠ [] := fun v hv => hne v (List.mem_cons_of_mem a hv)
    have hn : (a.name != []) = true := by
      simpa using hne a (List.mem_cons_self a rest)
    unfold dedup_items at hu
    by_cases hs : seen.contains (trimStr a.name) = true
    · simp only [hn, hs, if_true] at hu
      have hnot := dedup_items_not_seen seen rest u hu
      have hne2 : (trimStr a.name == trimStr u.name) = false := by
        by_contra hcontra
        have heq : trimStr a.name = trimStr u.name := by
          simpa using Bool.not_eq_false _ |>.mp hcontra
        rw [heq] at hs
        have hni : trimStr u.name ∉ seen := by simpa using hnot
        exact hni (by simpa using hs)
      rw [List.find?_cons_of_neg _ (by simp [hne2]), ih seen hrest u hu]
    · simp only [hn, hs, if_true, if_false] at hu
      rcases List.mem_cons.mp hu with rfl | hu
      · exact List.find?_cons_of_pos _ (by simp)
      · have hnot := dedup_items_not_seen (trimStr a.name :: seen) rest u hu
        simp only [List.contains_cons, Bool.or_eq_false_iff, beq_eq_false_iff_ne] at hnot
        have hne2 : (trimStr a.name == trimStr u.name) = false := by
          simp only [beq_eq_false_iff_ne]
          exact fun hcontra => hnot.1 hcontra.symm
        rw [List.find?_cons_of_neg _ (by simp [hne2]), ih (trimStr a.name :: seen) hrest u hu]

/-- A qualifying line is non-empty (its length exceeds 1). -/
theorem qualify_ne_nil {l : Str} (h : qualify l = true) : l ≠ [] := by
  intro hnil
  subst hnil
  simp [qualify] at h

/-- Once a name has been fixed, the second pass appends exactly the
remaining qualifying lines different from the name. -/
theorem second_pass_named (rest : List Str) (name : Str) (desc : List Str)
    (hn : name ≠ []) :
    second_pass rest name desc =
      (name, desc ++ rest.filter (fun l => qualify l && l != name)) := by
  induction rest generalizing desc with
  | nil => simp [second_pass]
  | cons l r ih =>
    by_cases hq : qualify l = true
    · by_cases he : (l != name) = true
      · simp only [second_pass]
        rw [if_pos hq, if_neg hn, if_pos he, ih (desc ++ [l]), List.filter_cons]
        simp [hq, he]
      · simp only [second_pass]
        rw [if_pos hq, if_neg hn, if_neg he, ih desc, List.filter_cons]
        have he2 : (l != name) = false := by simpa using he
        simp [he2]
    · simp only [second_pass]
      rw [if_neg hq, ih desc, List.filter_cons]
      have hq2 : qualify l = false := by simpa using hq
      simp [hq2]

/-- Characterization of the second pass from its initial state: the name
is the first qualifying line, and the description parts are all other
qualifying lines different from it. -/
theorem second_pass_start (lines : List Str) :
    second_pass lines [] [] =
      match lines.find? qualify with
      | some n => (n, lines.filter (fun l => qualify l && l != n))
      | none => ([], []) := by
  induction lines with
  | nil => rfl
  | cons l r ih =>
    by_cases hq : qualify l = true
    · have hne := qualify_ne_nil hq
      rw [List.find?_cons_of_pos _ hq]
      simp only [second_pass]
      rw [if_pos hq]
      simp only [eq_self_iff_true, if_true]
      rw [second_pass_named r l [] hne, List.filter_cons]
      have hll : (qualify l && l != l) = false := by simp
      simp [hll]
    · rw [List.find?_cons_of_neg _ hq]
      simp only [second_pass]
      rw [if_neg hq, ih]
      have hq2 : qualify l = false := by simpa using hq
      cases hf : r.find? qualify with
      | none => rfl
      | some n =>
        simp only [List.filter_cons]
        have hc : (qualify l && l != n) = false := by simp [hq2]
        simp [hc]

/-- The first pass of the item parser equals the first-line-with-a-dollar
characterization used by the amended claim. -/
theorem find_price_eq_amended (lines : List Str) :
    find_price lines = amended_price lines := by
  induction lines with
  | nil => rfl
  | cons l r ih =>
    by_cases hd : l.contains '$' = true
    · simp only [find_price, amended_price]
      rw [if_pos hd, @List.find?_cons_of_pos Str (fun s => s.contains '$') l r hd]
    · simp only [find_price, amended_price]
      rw [if_neg hd, @List.find?_cons_of_neg Str (fun s => s.contains '$') l r hd]
      exact ih

/-- The handler closes the session exactly once when it was created and
never otherwise. -/
theorem scrape_menu_closeCalls (req : ApiRequest) (env : AppEnv) :
    (scrape_menu req env).closeCalls =
      if (scrape_menu req env).sessionCreated = true then 1 else 0 := by
  unfold scrape_menu
  repeat' split
  all_goals simp_all

/-- C1: for every `POST /api/scrape` request on which the browser session
is successfully created, `scraper.close()` runs exactly once before the
response is returned, whatever the scrape and the response assembly do. -/
theorem c1_close_exactly_once (req : ApiRequest) (env : AppEnv)
    (h : (scrape_menu req env).sessionCreated = true) :
    (scrape_menu req env).closeCalls = 1 := by
  rw [scrape_menu_closeCalls, h]
  rfl

/-- Witness for C1: a valid request against a fully succeeding environment
creates the session and closes it exactly once. -/
theorem c1_witness :
    (scrape_menu goodReq appEnvOk).sessionCreated = true
  ∧ (scrape_menu goodReq appEnvOk).closeCalls = 1 :=
  ⟨by decide, c1_close_exactly_once goodReq appEnvOk (by decide)⟩

/-- C2: for every sequence of parsed menu items (whose names are truthy,
as `_extract_item_details` guarantees), the deduplicated extraction result
has pairwise distinct trimmed names, is a sublist of the input (keeping
first-occurrence order), represents every trimmed-name group, and each
surviving item is the first input item bearing its trimmed name. -/
theorem c2_dedup_first_seen (items : List MenuItem)
    (h : ∀ it ∈ items, it.name ≠ []) :
    ((dedup_items [] items).Pairwise fun a b => trimStr a.name ≠ trimStr b.name)
  ∧ List.Sublist (dedup_items [] items) items
  ∧ (∀ it ∈ items, ∃ u ∈ dedup_items [] items, trimStr u.name = trimStr it.name)
  ∧ (∀ u ∈ dedup_items [] items,
      items.find? (fun v => trimStr v.name == trimStr u.name) = some u) := by
  refine ⟨dedup_items_pairwise [] items, dedup_items_sublist [] items, ?_,
    dedup_items_first [] items h⟩
  intro it hit
  exact dedup_items_covers [] items it hit (h it hit) rfl

/-- Witness for C2 on a list with one duplicated trimmed name. -/
theorem c2_witness :
    ((dedup_items [] itemsDup).Pairwise fun a b => trimStr a.name ≠ trimStr b.name)
  ∧ List.Sublist (dedup_items [] itemsDup) itemsDup
  ∧ (∀ it ∈ itemsDup, ∃ u ∈ dedup_items [] itemsDup, trimStr u.name = trimStr it.name)
  ∧ (∀ u ∈ dedup_items [] itemsDup,
      itemsDup.find? (fun v => trimStr v.name == trimStr u.name) = some u) :=
  c2_dedup_first_seen itemsDup (by decide)

/-- C3: a request with no JSON body, an empty or absent `url`, or a `url`
not containing `ubereats.com` is answered with HTTP 400, and no scraper or
browser session is ever created. -/
theorem c3_invalid_input_no_browser (req : ApiRequest) (env : AppEnv)
    (h : req.json = none ∨ getUrl req = [] ∨
      hasSub (getUrl req) (str "ubereats.com") = false) :
    (scrape_menu req env).status = 400
  ∧ (scrape_menu req env).browserWork = false
  ∧ (scrape_menu req env).sessionCreated = false
  ∧ (scrape_menu req env).closeCalls = 0 := by
  obtain ⟨json⟩ := req
  cases json with
  | none => exact ⟨rfl, rfl, rfl, rfl⟩
  | some data =>
    by_cases he : data.isEmpty
    · simp only [scrape_menu]
      rw [if_pos he]
      exact ⟨rfl, rfl, rfl, rfl⟩
    · rcases h with h | h | h
      · exact absurd h (by simp)
      · have hu : trimStr ((data.lookup (str "url")).getD []) = [] := h
        simp only [scrape_menu]
        rw [if_neg he, if_pos hu]
        exact ⟨rfl, rfl, rfl, rfl⟩
      · by_cases hu : trimStr ((data.lookup (str "url")).getD []) = []
        · simp only [scrape_menu]
          rw [if_neg he, if_pos hu]
          exact ⟨rfl, rfl, rfl, rfl⟩
        · have hs : hasSub (trimStr ((data.lookup (str "url")).getD []))
              (str "ubereats.com") = false := h
          simp only [scrape_menu]
          rw [if_neg he, if_neg hu, if_pos (by simp [hs])]
          exact ⟨rfl, rfl, rfl, rfl⟩

/-- Witness for C3: a request with no JSON body. -/
theorem c3_witness :
    (scrape_menu ⟨none⟩ appEnvOk).status = 400
  ∧ (scrape_menu ⟨none⟩ appEnvOk).browserWork = false
  ∧ (scrape_menu ⟨none⟩ appEnvOk).sessionCreated = false
  ∧ (scrape_menu ⟨none⟩ appEnvOk).closeCalls = 0 :=
  c3_invalid_input_no_browser ⟨none⟩ appEnvOk (Or.inl rfl)

/-- Counterexample to C4 as stated: when collecting the menu item elements
raises after the session exists, `scrape_restaurant` does not return the
error dict the claim describes.  It returns a normal result with no
`error` key and the real extracted restaurant name. -/
theorem c4_counterexample :
    (scrape_restaurant (str "u") pageEnvExtractFail).error = none
  ∧ (scrape_restaurant (str "u") pageEnvExtractFail).restaurant_name = str "Sushi Place"
  ∧ (scrape_restaurant (str "u") pageEnvExtractFail).menu_items = []
  ∧ (scrape_restaurant (str "u") pageEnvExtractFail).restaurant_name ≠ str "Unknown" := by
  decide

/-- C4 (amended): exceptions during navigation or the page wait (other
than the caught timeout) yield the structured error dict with `error` set,
`restaurant_name = Unknown` and `menu_items = []`; exceptions inside name
or item extraction are caught within those helpers, so the scrape returns
a normal result whose name defaults to `Unknown Restaurant` on name
failure and whose items are `[]` when element collection fails. -/
theorem c4_error_containment (url : Str) (env : PageEnv) :
    (∀ e, env.nav = some e → scrape_restaurant url env = errorResult url e)
  ∧ (∀ e, env.nav = none → env.wait = WaitRes.err e →
      scrape_restaurant url env = errorResult url e)
  ∧ (env.nav = none → (env.wait = WaitRes.ok ∨ env.wait = WaitRes.timeout) →
      scrape_restaurant url env =
        { url := url
          restaurant_name := extract_restaurant_name env.nameEnv
          menu_items := extract_menu_items env.elements
          scraped_at := some env.scrapedAt
          error := none })
  ∧ (∀ e, env.elements = Except.error e → extract_menu_items env.elements = [])
  ∧ (env.nameEnv.fail = true →
      extract_restaurant_name env.nameEnv = str "Unknown Restaurant") := by
  refine ⟨?_, ?_, ?_, ?_, ?_⟩
  · intro e he
    simp [scrape_restaurant, scrape_restaurant_trace, he]
  · intro e hn hw
    simp [scrape_restaurant, scrape_restaurant_trace, hn, hw]
  · intro hn hw
    rcases hw with hw | hw <;>
      simp [scrape_restaurant, scrape_restaurant_trace, hn, hw]
  · intro e he
    simp [extract_menu_items, he]
  · intro hfail
    simp [extract_restaurant_name, hfail]

/-- Witness for C4 (amended): a navigation failure yields the error dict. -/
theorem c4_witness :
    scrape_restaurant (str "u") pageEnvNavFail
      = errorResult (str "u") (str "net::ERR_NAME_NOT_RESOLVED") :=
  (c4_error_containment (str "u") pageEnvNavFail).1
    (str "net::ERR_NAME_NOT_RESOLVED") rfl

/-- C5: the code sets `image_valid` to `bool(image_url)` and never calls
`_validate_image_fast`, so an item whose non-empty image URL contains
`placeholder` is reported `image_valid = true` even though the validation
function the spec describes rejects that URL. -/
theorem c5_image_valid_diverges :
    (extract_item_details (str "Dumplings\n$7.49") 0 placeholder_url).map
        (fun it => it.image_valid) = some true
  ∧ validate_image_fast placeholder_url = false
  ∧ hasSub (lowerStr placeholder_url) (str "placeholder") = true := by
  decide

/-- Counterexample to C6 as stated: on the element text
`x\nBurger\nTasty\nCrispy\n$1 off $5.00 • 89%` the claim's reading
predicts name `x`, price `$1 off $5.00` and description
`Burger•Tasty•Crispy`, while the code produces name `Burger` (lines of
length 1 never qualify), price `$1 off` (the slice stops at the next `$`)
and description `Tasty • Crispy` (joined with a spaced bullet). -/
theorem c6_counterexample :
    claim_name (linesOf t6) = some (str "x")
  ∧ claim_price (linesOf t6) = str "$1 off $5.00"
  ∧ claim_desc (linesOf t6) = str "Burger•Tasty•Crispy"
  ∧ (extract_item_details t6 0 []).map (fun it => (it.name, it.price, it.description))
      = some (str "Burger", str "$1 off", str "Tasty • Crispy")
  ∧ str "Burger" ≠ str "x"
  ∧ str "$1 off" ≠ str "$1 off $5.00"
  ∧ str "Tasty • Crispy" ≠ str "Burger•Tasty•Crispy" := by
  decide

/-- C6 (amended): on non-blank text the parser returns the first line of
length greater than 1 not starting with a boilerplate marker as the name
(first line as fallback), the price from the first line containing `$` by
slicing between the first `$` and the next `$` or `•` and trimming, and
all other qualifying lines distinct from the name joined with a spaced
bullet as the description. -/
theorem c6_parse_characterization (text : Str) (idx : Nat) (img : Str)
    (h1 : trimStr text ≠ []) (h2 : linesOf text ≠ []) :
    (extract_item_details text idx img).map (fun it => (it.name, it.price, it.description))
      = some (amended_name (linesOf text), amended_price (linesOf text),
          amended_desc (linesOf text)) := by
  simp only [extract_item_details, if_neg h1]
  rw [second_pass_start, ← find_price_eq_amended]
  cases hf : (linesOf text).find? qualify with
  | some n =>
    have hq := List.find?_some hf
    have hne := qualify_ne_nil hq
    simp only [if_neg hne]
    simp [amended_name, amended_desc, hf]
  | none =>
    cases hL : linesOf text with
    | nil => exact absurd hL h2
    | cons a rest =>
      have ha : a ≠ [] := linesOf_mem_ne_nil (by rw [hL]; exact List.mem_cons_self a rest)
      have hf2 : (a :: rest).find? qualify = none := hL ▸ hf
      have hqs : ∀ l ∈ (a :: rest), ¬qualify l = true := List.find?_eq_none.mp hf2
      simp only [hL, List.headD_cons, if_true]
      rw [if_neg ha]
      simp only [Option.map_some']
      refine congrArg some ?_
      have hdesc : List.filter (fun l => qualify l && l != amended_name (a :: rest))
          (a :: rest) = [] :=
        List.filter_eq_nil_iff.mpr (by intro l hl; simp [hqs l hl])
      refine Prod.ext ?_ (Prod.ext rfl ?_)
      · simp [amended_name, hf2]
      · simp [amended_desc, hdesc]

/-- Witness for C6 (amended) at the concrete text `t6`. -/
theorem c6_witness :
    (extract_item_details t6 0 []).map (fun it => (it.name, it.price, it.description))
      = some (amended_name (linesOf t6), amended_price (linesOf t6),
          amended_desc (linesOf t6)) :=
  c6_parse_characterization t6 0 [] (by decide) (by decide)

/-- C7: the text block `#1 most liked\n302 Dumplings\n$7.49 • 89% (192)`
parses to name `302 Dumplings`, price `$7.49`, and an empty description,
which in particular omits the `#1 most liked` line. -/
theorem c7_example_parse :
    (extract_item_details (str "#1 most liked\n302 Dumplings\n$7.49 • 89% (192)") 0 []).map
        (fun it => (it.name, it.price, it.description))
      = some (str "302 Dumplings", str "$7.49", []) := by
  decide

/-- Counterexample to C8 as stated: a full scrape run performs exactly one
popup-selector lookup and never sends an Escape keypress, although item
extraction does proceed. -/
theorem c8_counterexample :
    Action.getItems ∈ (scrape_restaurant_trace (str "u") pageEnvOk).2
  ∧ Action.sendEscape ∉ (scrape_restaurant_trace (str "u") pageEnvOk).2
  ∧ (scrape_restaurant_trace (str "u") pageEnvOk).2.countP isFindClose = 1 := by
  decide

/-- C8 (amended): on every scrape invocation that gets past navigation and
the page wait, the popup-dismissal step consists of a single lookup of the
selector `button[aria-label="Close"]` before item extraction, and no
Escape keypress is ever sent (`_handle_popups`, which implements the
multi-heuristic Escape fallback, is never invoked). -/
theorem c8_single_popup_heuristic (url : Str) (env : PageEnv)
    (h1 : env.nav = none) (h2 : ∀ e, env.wait ≠ WaitRes.err e) :
    Action.sendEscape ∉ (scrape_restaurant_trace url env).2
  ∧ List.Sublist [Action.findClose (str "button[aria-label=\"Close\"]"), Action.getItems]
      ((scrape_restaurant_trace url env).2)
  ∧ (scrape_restaurant_trace url env).2.countP isFindClose = 1 := by
  have ht : (scrape_restaurant_trace url env).2 =
      Action.navigate :: Action.findClose (str "button[aria-label=\"Close\"]") ::
        ((if env.popupFound && env.popupDisplayed then [Action.clickClose] else []) ++
         [Action.waitItems, Action.scroll, Action.getName, Action.getItems]) := by
    obtain ⟨nav, pf, pd, wait, nameEnv, elems, sa⟩ := env
    simp only at h1
    subst h1
    cases wait with
    | err e => exact absurd rfl (h2 e)
    | ok => rfl
    | timeout => rfl
  rw [ht]
  cases hb : env.popupFound && env.popupDisplayed <;> decide

/-- Witness for C8 (amended) on a concrete fully succeeding environment. -/
theorem c8_witness :
    Action.sendEscape ∉ (scrape_restaurant_trace (str "w") pageEnvOk).2
  ∧ List.Sublist [Action.findClose (str "button[aria-label=\"Close\"]"), Action.getItems]
      ((scrape_restaurant_trace (str "w") pageEnvOk).2)
  ∧ (scrape_restaurant_trace (str "w") pageEnvOk).2.countP isFindClose = 1 :=
  c8_single_popup_heuristic (str "w") pageEnvOk rfl (fun _ h => WaitRes.noConfusion h)

/-- C9: restaurant-name extraction returns the first configured selector's
non-empty stripped element text; when no selector yields one it derives
the name from a title containing `Uber Eats`; otherwise it returns the
constant `Unknown Restaurant`. -/
theorem c9_name_fallback_chain (env : NameEnv) (hf : env.fail = false) :
    (∀ t, env.findText (str "h1") = some t → trimStr t ≠ [] →
        extract_restaurant_name env = trimStr t)
  ∧ (∀ t, (∀ s, env.findText (str "h1") = some s → trimStr s = []) →
        env.findText (str "[data-testid*=\"store\"]") = some t → trimStr t ≠ [] →
        extract_restaurant_name env = trimStr t)
  ∧ ((∀ sel ∈ restaurant_name_selectors, ∀ s, env.findText (trimStr sel) = some s →
        trimStr s = []) →
      ((env.title ≠ [] → hasSub env.title (str "Uber Eats") = true →
          extract_restaurant_name env = trimStr (replaceStr env.title (str "Uber Eats") []))
      ∧ ((env.title = [] ∨ hasSub env.title (str "Uber Eats") = false) →
          extract_restaurant_name env = str "Unknown Restaurant"))) := by
  have e1 : trimStr (str "h1") = str "h1" := by decide
  have e2 : trimStr (str "[data-testid*=\"store\"]") = str "[data-testid*=\"store\"]" := by
    decide
  unfold extract_restaurant_name
  rw [if_neg (by simp [hf])]
  simp only [restaurant_name_selectors, List.findSome?_cons, List.findSome?_nil, e1, e2]
  refine ⟨?_, ?_, ?_⟩
  · intro t ht hne
    rw [ht]
    simp [hne]
  · intro t hfirst ht hne
    cases hx : env.findText (str "h1") with
    | none =>
      rw [ht]
      simp [hne]
    | some s =>
      have hs := hfirst s hx
      rw [ht]
      simp [hs, hne]
  · intro hall
    have hh1 : ∀ s, env.findText (str "h1") = some s → trimStr s = [] := by
      intro s hs
      exact hall (str "h1") (by simp [restaurant_name_selectors]) s (by rw [e1]; exact hs)
    have hh2 : ∀ s, env.findText (str "[data-testid*=\"store\"]") = some s →
        trimStr s = [] := by
      intro s hs
      exact hall (str "[data-testid*=\"store\"]") (by simp [restaurant_name_selectors]) s
        (by rw [e2]; exact hs)
    constructor
    · intro hne hu
      cases hx : env.findText (str "h1") with
      | none =>
        cases hy : env.findText (str "[data-testid*=\"store\"]") with
        | none => simp [hne, hu]
        | some s => simp [hh2 s hy, hne, hu]
      | some s =>
        cases hy : env.findText (str "[data-testid*=\"store\"]") with
        | none => simp [hh1 s hx, hne, hu]
        | some s2 => simp [hh1 s hx, hh2 s2 hy, hne, hu]
    · intro hd
      rcases hd with hd | hd
      · cases hx : env.findText (str "h1") with
        | none =>
          cases hy : env.findText (str "[data-testid*=\"store\"]") with
          | none => simp [hd]
          | some s => simp [hh2 s hy, hd]
        | some s =>
          cases hy : env.findText (str "[data-testid*=\"store\"]") with
          | none => simp [hh1 s hx, hd]
          | some s2 => simp [hh1 s hx, hh2 s2 hy, hd]
      · cases hx : env.findText (str "h1") with
        | none =>
          cases hy : env.findText (str "[data-testid*=\"store\"]") with
          | none => simp [hd]
          | some s => simp [hh2 s hy, hd]
        | some s =>
          cases hy : env.findText (str "[data-testid*=\"store\"]") with
          | none => simp [hh1 s hx, hd]
          | some s2 => simp [hh1 s hx, hh2 s2 hy, hd]

/-- Witness for C9: when the first selector yields `Bao House`, that is the
extracted name. -/
theorem c9_witness : extract_restaurant_name nameEnvSel = trimStr (str "Bao House") :=
  (c9_name_fallback_chain nameEnvSel rfl).1 (str "Bao House") rfl (by decide)

/-- C10: every parsed item has `has_image = image_valid`, both being true
exactly when the image URL is non-empty; placeholder URLs are therefore
reported valid. -/
theorem c10_has_image_eq_image_valid (text : Str) (idx : Nat) (img : Str)
    (it : MenuItem) (h : extract_item_details text idx img = some it) :
    it.has_image = it.image_valid
  ∧ (it.image_valid = true ↔ it.image_url ≠ [])
  ∧ it.image_url = img := by
  simp only [extract_item_details] at h
  repeat' split at h
  all_goals first
    | exact Option.noConfusion h
    | (injection h with h
       subst h
       exact ⟨rfl, by simp [bne_iff_ne], rfl⟩)

/-- Witness for C10 at a parse whose image URL is a non-empty placeholder. -/
theorem c10_witness :
    itemPlaceholder.has_image = itemPlaceholder.image_valid
  ∧ (itemPlaceholder.image_valid = true ↔ itemPlaceholder.image_url ≠ [])
  ∧ itemPlaceholder.image_url = placeholder_url :=
  c10_has_image_eq_image_valid (str "Dumplings\n$7.49") 0 placeholder_url
    itemPlaceholder (by decide)

end Scraper
